import Mathlib

/-!
Shallow embedding of the Postr browser extension's permission-gated signing
gateway: the request validator (shared/nip07-signer.js, `validateEvent`), the
permission store (shared/storage.js, site-permission operations), the
background gateway (the SIGN_EVENT / SIGN_DIALOG_RESPONSE handlers and the
`chrome.windows.onRemoved` listener of background.js), and the sign-dialog
approve handler (popup/sign-dialog.js).

JavaScript values relevant to the embedded code are modelled as follows:
numbers are rationals (JS numbers need not be integers; `typeof x === 'number'`
accepts 2.5), strings are `String`, `null`/absent fields are `Option`, and JS
truthiness of the fields actually tested by the code is made explicit
(`0`, `""`, `null` are falsy).  Timestamps (`Date.now()`) are naturals
(milliseconds).  The JS `Map` used for the pending-request table and the
dialog-window tracker is an insertion-ordered association list with
set-replaces / delete-filters semantics.
-/

namespace Postr

/-- Dynamically typed JS value as far as the validator inspects it:
`typeof x === 'number'` matches `num`, `typeof x === 'string'` matches `str`,
`Array.isArray x` matches `arr`; everything else (booleans, objects, ...) is
`other`. -/
inductive JVal where
  | num (q : ℚ)
  | str (s : String)
  | arr (len : ℕ)
  | other
deriving DecidableEq, Repr

/-- Integer-valued JS number (a rational with denominator 1). -/
def intNum (z : ℤ) : ℚ := ⟨z, 1, Nat.one_ne_zero, Nat.coprime_one_right _⟩

/-- Argument passed to `validateEvent`: `null`/falsy values and truthy
non-objects both fail the `!event || typeof event !== 'object'` guard;
otherwise the validator reads the four fields, each possibly absent. -/
inductive EventArg where
  | jsNull
  | primitive
  | obj (kind created_at tags content : Option JVal)
deriving DecidableEq, Repr

/-- JS `<` between a number and an integer, scaled to avoid rational
normalisation: `q < z  ↔  q.num < z * q.den`. -/
def jsLtInt (q : ℚ) (z : ℤ) : Bool := q.num < z * (q.den : ℤ)

/-- JS `>` between a number and an integer. -/
def jsGtInt (q : ℚ) (z : ℤ) : Bool := z * (q.den : ℤ) < q.num

/-- The `typeof event.kind !== 'number'` check of `validateEvent`. -/
def kindErrors (kind : Option JVal) : List String :=
  match kind with
  | some (.num _) => []
  | _ => ["Missing or invalid \"kind\" field"]

/-- The `created_at` checks of `validateEvent`: a non-number is one error;
a number is range-checked against `now ± 3600` seconds. -/
def createdAtErrors (created_at : Option JVal) (nowSec : ℤ) : List String :=
  match created_at with
  | some (.num c) =>
      if jsLtInt c (nowSec - 3600) || jsGtInt c (nowSec + 3600) then
        ["\"created_at\" is outside reasonable time range"]
      else []
  | _ => ["Missing or invalid \"created_at\" field"]

/-- The `Array.isArray(event.tags)` check of `validateEvent`. -/
def tagsErrors (tags : Option JVal) : List String :=
  match tags with
  | some (.arr _) => []
  | _ => ["Missing or invalid \"tags\" field"]

/-- The `typeof event.content !== 'string'` check of `validateEvent`. -/
def contentErrors (content : Option JVal) : List String :=
  match content with
  | some (.str _) => []
  | _ => ["Missing or invalid \"content\" field"]

/-- Embeds `Nip07Signer.validateEvent` (shared/nip07-signer.js).  `nowMs` is
`Date.now()`; the function computes `now = Math.floor(Date.now() / 1000)`
itself.  Errors are accumulated in source order: kind, created_at, tags,
content. -/
def validateEvent (event : EventArg) (nowMs : ℕ) : List String :=
  match event with
  | .jsNull => ["Event is not an object"]
  | .primitive => ["Event is not an object"]
  | .obj kind created_at tags content =>
    kindErrors kind ++ createdAtErrors created_at (nowMs / 1000 : ℕ) ++
      tagsErrors tags ++ contentErrors content

/-- Stored site-permission record (shared/storage.js).  `type` is `none` for a
legacy record lacking the field; `expiresAt` is `none` for the stored `null`
of a permanent permission. -/
structure Permission where
  domain : String
  type : Option String
  duration : Option String
  expiresAt : Option ℕ
  addedAt : ℕ
deriving DecidableEq, Repr

/-- The persisted `postr_site_permissions` array. -/
abbrev Store := List Permission

/-- JS truthiness of an optional string field (`undefined` and `""` falsy). -/
def truthyStr : Option String → Bool
  | none => false
  | some s => s ≠ ""

/-- JS truthiness of an optional number field (`null` and `0` falsy). -/
def truthyNum : Option ℕ → Bool
  | none => false
  | some n => n ≠ 0

/-- Embeds `Storage.addSitePermission`: filter out any record for the domain,
then push the new record (`addedAt: Date.now()`). -/
def addSitePermission (s : Store) (domain type duration : String)
    (expiresAt : Option ℕ) (nowMs : ℕ) : Store :=
  s.filter (fun p => p.domain ≠ domain) ++
    [⟨domain, some type, some duration, expiresAt, nowMs⟩]

/-- Embeds `Storage.removeSitePermission`: filter out the domain's record. -/
def removeSitePermission (s : Store) (domain : String) : Store :=
  s.filter (fun p => p.domain ≠ domain)

/-- Result of `Storage.getSiteStatus`. -/
inductive SiteStatus where
  | allowed
  | denied
  | unknown
deriving DecidableEq, Repr

/-- The `permission.expiresAt && permission.expiresAt < Date.now()` test of
`getSiteStatus` (JS `&&`: a stored `0` or `null` is falsy, so the expiry
comparison is only reached for a truthy, i.e. nonzero, timestamp). -/
def isExpired (expiresAt : Option ℕ) (nowMs : ℕ) : Bool :=
  match expiresAt with
  | none => false
  | some e => e ≠ 0 && e < nowMs

/-- Embeds `Storage.getSiteStatus` (shared/storage.js): find the record; absent
means unknown; a truthy, elapsed `expiresAt` purges the record and reports
unknown; a falsy `type` (legacy entry) purges and reports unknown; `'deny'`
maps to denied; any other truthy `type` maps to allowed.  Returns the status
together with the store as left behind by the call. -/
def getSiteStatus (s : Store) (domain : String) (nowMs : ℕ) :
    SiteStatus × Store :=
  match s.find? (fun p => p.domain == domain) with
  | none => (.unknown, s)
  | some p =>
    if isExpired p.expiresAt nowMs then
      (.unknown, removeSitePermission s domain)
    else if ¬ truthyStr p.type then
      (.unknown, removeSitePermission s domain)
    else if p.type == some "deny" then
      (.denied, s)
    else
      (.allowed, s)

/-- Embeds `Storage.cleanupExpiredPermissions`: drop legacy and expired
records, returning the surviving store and the number removed. -/
def cleanupExpiredPermissions (s : Store) (nowMs : ℕ) : Store × ℕ :=
  let valid := s.filter (fun p => truthyStr p.type && ! isExpired p.expiresAt nowMs)
  (valid, s.length - valid.length)

/-! ### JS `Map` as an insertion-ordered association list -/

/-- JS `Map.prototype.set`: replace in place if the key exists, else append. -/
def mapSet {κ α : Type} [BEq κ] (m : List (κ × α)) (k : κ) (v : α) :
    List (κ × α) :=
  if m.any (fun kv => kv.1 == k) then
    m.map (fun kv => if kv.1 == k then (k, v) else kv)
  else
    m ++ [(k, v)]

/-- JS `Map.prototype.get` (first entry with the key). -/
def mapGet {κ α : Type} [BEq κ] (m : List (κ × α)) (k : κ) : Option α :=
  (m.find? (fun kv => kv.1 == k)).map (fun kv => kv.2)

/-- JS `Map.prototype.delete`. -/
def mapDelete {κ α : Type} [BEq κ] (m : List (κ × α)) (k : κ) :
    List (κ × α) :=
  m.filter (fun kv => kv.1 != k)

/-- The `for (const [winId, reqId] of dialogWindows) { if (reqId === rid) {
delete; break } }` loop of the SIGN_DIALOG_RESPONSE handler: delete the first
entry whose value is `rid`. -/
def deleteFirstByValue {κ α : Type} [BEq α] :
    List (κ × α) → α → List (κ × α)
  | [], _ => []
  | kv :: rest, v =>
    if kv.2 == v then rest else kv :: deleteFirstByValue rest v

/-! ### Gateway state and handlers (background.js) -/

/-- Signed event as far as the gateway observes it (the Signing Capability is
external; the gateway reads only `.id` for the history entry). -/
structure SignedEv where
  id : String
deriving DecidableEq, Repr

/-- One entry of the in-memory `pendingRequests` map: the captured
`sendResponse` resolver is represented by the entry itself; invoking it is
modelled as emitting a resolution `(requestId, reply)`. -/
structure PendingReq where
  event : EventArg
  domain : String
  origin : String
deriving DecidableEq, Repr

/-- Reply delivered to a caller: `{ result }` or `{ error }`. -/
inductive Reply where
  | ok (se : SignedEv)
  | err (msg : String)
deriving DecidableEq, Repr

/-- Observable side effects of a dispatch, in order of occurrence. -/
inductive Effect where
  | signInvoked (event : EventArg)
  | historyAppended (domain : String) (kind : Option JVal) (eventId : String)
  | notificationShown (domain : String)
  | dialogOpened (requestId : String)
deriving DecidableEq, Repr

/-- The `postr_notification_settings` record. -/
structure NotifSettings where
  showAutoSignNotifications : Bool
  enableSigningHistory : Bool
deriving DecidableEq, Repr

/-- Environment of a dispatch: login state, settings, and the external
Signing Capability (`Nip07Signer.signEvent`), which may fail. -/
structure Ctx where
  loggedIn : Bool
  settings : NotifSettings
  sign : EventArg → Except String SignedEv

/-- In-memory gateway state: the `pendingRequests` map, the `dialogWindows`
map (windowId → requestId), and the `chrome.storage.local` transient
`sign_request_<id>` records. -/
structure GatewayState where
  pending : List (String × PendingReq)
  dialogWindows : List (ℕ × String)
  transient : List (String × (EventArg × String × String))
deriving DecidableEq, Repr

/-- Keys of the `pendingRequests` map. -/
def pendingKeys (st : GatewayState) : List String :=
  st.pending.map (fun kv => kv.1)

/-- The `requestId = Date.now().toString()` allocation of the SIGN_EVENT
handler. -/
def makeRequestId (nowMs : ℕ) : String := toString nowMs

/-- Storage key of the transient payload: `'sign_request_' + requestId`. -/
def transientKey (requestId : String) : String := "sign_request_" ++ requestId

/-- The `event.kind` the gateway passes to `addSigningHistory`. -/
def eventKindOf : EventArg → Option JVal
  | .obj kind _ _ _ => kind
  | _ => none

/-- Embeds the SIGN_EVENT branch of the background message listener.  Returns
the immediate reply (`none` when the handler suspends awaiting the dialog),
the updated gateway state and permission store, and the side effects.
`nowMs` is `Date.now()` during the dispatch and `winId` the id of the window
`chrome.windows.create` reports for the approval dialog. -/
def handleSignEvent (ctx : Ctx) (st : GatewayState) (store : Store)
    (domain origin : String) (event : EventArg) (nowMs : ℕ) (winId : ℕ) :
    Option Reply × GatewayState × Store × List Effect :=
  if ¬ ctx.loggedIn then
    (some (.err "Not logged in. Please login to Postr extension."), st, store, [])
  else
    let validationErrors := validateEvent event nowMs
    if validationErrors ≠ [] then
      (some (.err ("Malformed event: " ++ String.intercalate ", " validationErrors)),
        st, store, [])
    else
      let (status, store1) := getSiteStatus store domain nowMs
      match status with
      | .denied => (some (.err "User rejected"), st, store1, [])
      | .allowed =>
        match ctx.sign event with
        | .ok signedEvent =>
          let histEff : List Effect :=
            if ctx.settings.enableSigningHistory then
              [.historyAppended domain (eventKindOf event) signedEvent.id]
            else []
          let notifEff : List Effect :=
            if ctx.settings.showAutoSignNotifications then
              [.notificationShown domain]
            else []
          (some (.ok signedEvent), st, store1,
            .signInvoked event :: histEff ++ notifEff)
        | .error e => (some (.err e), st, store1, [.signInvoked event])
      | .unknown =>
        let requestId := makeRequestId nowMs
        let st1 : GatewayState :=
          { pending := mapSet st.pending requestId ⟨event, domain, origin⟩
            dialogWindows := mapSet st.dialogWindows winId requestId
            transient := mapSet st.transient (transientKey requestId)
              (event, domain, origin) }
        (none, st1, store1, [.dialogOpened requestId])

/-- Message sent by the sign dialog: `{ requestId, approved, error? }`. -/
structure DialogMsg where
  requestId : String
  approved : Bool
  error : Option String
deriving DecidableEq, Repr

/-- The `request.error || 'User rejected'` fallback (JS `||`: `undefined` and
`""` both fall through to the default). -/
def errorOrDefault : Option String → String
  | none => "User rejected"
  | some e => if e ≠ "" then e else "User rejected"

/-- Embeds the SIGN_DIALOG_RESPONSE branch of the background listener.
Returns the updated state, the resolution of the pending request (`none`
when the requestId matches no pending entry), and the side effects; the
handler additionally acknowledges the dialog with `{ ok: true }`
unconditionally, which carries no information and is not modelled. -/
def handleDialogResponse (ctx : Ctx) (st : GatewayState) (msg : DialogMsg) :
    GatewayState × Option (String × Reply) × List Effect :=
  match mapGet st.pending msg.requestId with
  | none => (st, none, [])
  | some pr =>
    let st1 : GatewayState :=
      { pending := mapDelete st.pending msg.requestId
        dialogWindows := deleteFirstByValue st.dialogWindows msg.requestId
        transient := mapDelete st.transient (transientKey msg.requestId) }
    if msg.approved then
      match ctx.sign pr.event with
      | .ok signedEvent =>
        let histEff : List Effect :=
          if ctx.settings.enableSigningHistory then
            [.historyAppended pr.domain (eventKindOf pr.event) signedEvent.id]
          else []
        (st1, some (msg.requestId, .ok signedEvent),
          .signInvoked pr.event :: histEff)
      | .error e =>
        (st1, some (msg.requestId, .err e), [.signInvoked pr.event])
    else
      (st1, some (msg.requestId, .err (errorOrDefault msg.error)), [])

/-- Embeds the `chrome.windows.onRemoved` listener: look up the window's
tracked requestId; if absent, return; else delete the tracker entry and, if a
pending request still exists, delete it, discard the transient payload, and
resolve the caller with the DialogClosed error. -/
def handleWindowRemoved (st : GatewayState) (winId : ℕ) :
    GatewayState × Option (String × Reply) :=
  match mapGet st.dialogWindows winId with
  | none => (st, none)
  | some requestId =>
    let st1 : GatewayState := { st with dialogWindows := mapDelete st.dialogWindows winId }
    match mapGet st1.pending requestId with
    | none => (st1, none)
    | some _ =>
      ({ st1 with
          pending := mapDelete st1.pending requestId
          transient := mapDelete st1.transient (transientKey requestId) },
        some (requestId, .err "User closed dialog"))

/-! ### Dispatch traces -/

/-- One event dispatched to the background script.  A `signEventReq` carries
the `Date.now()` of its dispatch and the window id the browser assigns if an
approval dialog is opened. -/
inductive GatewayOp where
  | signEventReq (domain origin : String) (event : EventArg) (nowMs : ℕ)
      (winId : ℕ)
  | dialogResponse (msg : DialogMsg)
  | windowRemoved (winId : ℕ)
deriving DecidableEq, Repr

/-- Single dispatch step: runs the matching handler and returns the new
(gateway state, permission store) plus the list of invocations of captured
pending-request resolvers this dispatch performed. -/
def stepOp (ctx : Ctx) (s : GatewayState × Store) (op : GatewayOp) :
    (GatewayState × Store) × List (String × Reply) :=
  match op with
  | .signEventReq domain origin event nowMs winId =>
    let (_, st1, store1, _) :=
      handleSignEvent ctx s.1 s.2 domain origin event nowMs winId
    ((st1, store1), [])
  | .dialogResponse msg =>
    let (st1, res, _) := handleDialogResponse ctx s.1 msg
    ((st1, s.2), res.toList)
  | .windowRemoved winId =>
    let (st1, res) := handleWindowRemoved s.1 winId
    ((st1, s.2), res.toList)

/-- Runs a trace of dispatches, accumulating resolver invocations in order. -/
def runTrace (ctx : Ctx) (s : GatewayState × Store) :
    List GatewayOp → (GatewayState × Store) × List (String × Reply)
  | [] => (s, [])
  | op :: ops =>
    let (s1, res) := stepOp ctx s op
    let (s2, rest) := runTrace ctx s1 ops
    (s2, res ++ rest)

/-- Number of resolver invocations for a given requestId in a trace's
resolution log. -/
def resolutionsFor (requestId : String) (log : List (String × Reply)) : ℕ :=
  log.countP (fun r => r.1 == requestId)

/-! ### Sign-dialog approve handler (popup/sign-dialog.js) -/

/-- JS `String.prototype.split` with a single-character separator, on the
character list of the string. -/
def jsSplitChar (c : Char) : List Char → List (List Char)
  | [] => [[]]
  | x :: xs =>
    let rest := jsSplitChar c xs
    if x = c then [] :: rest
    else
      match rest with
      | [] => [[x]]
      | h :: t => (x :: h) :: t

/-- JS `value.split('_')`. -/
def jsSplit (s : String) (c : Char) : List String :=
  (jsSplitChar c s.toList).map (fun l => String.mk l)

/-- JS `parseInt` restricted to the all-digit duration strings the dialog's
select menu produces (`"5"`, `"15"`, `"60"`, `"240"`, `"1440"`). -/
def parseIntNat (s : String) : ℕ :=
  s.toList.foldl (fun acc c => acc * 10 + (c.toNat - 48)) 0

/-- Embeds the approve-button click handler of popup/sign-dialog.js: parse the
select value into action and duration (a missing second component, impossible
for the menu's values, is modelled as `""`), compute `expiresAt` for timed
permissions, upsert the permission store unless the duration is `"once"`, and
only then send the SIGN_DIALOG_RESPONSE message (deny actions send
`approved: false`, allow actions `approved: true`).  Returns the store as it
stands when the message is sent, together with the message. -/
def approveClick (store : Store) (domain requestId value : String)
    (nowMs : ℕ) : Store × DialogMsg :=
  let parts := jsSplit value '_'
  let action := (parts.get? 0).getD ""
  let duration := (parts.get? 1).getD ""
  let isDeny := action == "deny"
  let expiresAt : Option ℕ :=
    if duration ≠ "once" && duration ≠ "permanent" then
      some (nowMs + parseIntNat duration * 60 * 1000)
    else none
  let store1 :=
    if duration ≠ "once" then
      addSitePermission store domain (if isDeny then "deny" else "allow")
        duration expiresAt nowMs
    else store
  (store1, ⟨requestId, !isDeny, none⟩)

/-- Composition of the dialog approve click with the background
SIGN_DIALOG_RESPONSE handler: the upsert happens strictly before the gateway
acts on the approval or denial, so the handler runs against the already
updated store (which it never touches).  Returns the store in effect at the
moment the resolver (or Signing Capability) is invoked, the final gateway
state, the resolution, and the gateway's side effects. -/
def approveFlow (ctx : Ctx) (st : GatewayState) (store : Store)
    (domain requestId value : String) (nowMs : ℕ) :
    Store × GatewayState × Option (String × Reply) × List Effect :=
  let (store1, msg) := approveClick store domain requestId value nowMs
  let (st1, res, effs) := handleDialogResponse ctx st msg
  (store1, st1, res, effs)

/-! ### Permission-store call sequences (for the single-record invariant) -/

/-- One permission-store write: `addSitePermission` or
`removeSitePermission`, with the `Date.now()` of the call. -/
inductive PermOp where
  | upsert (domain type duration : String) (expiresAt : Option ℕ) (nowMs : ℕ)
  | revoke (domain : String)
deriving DecidableEq, Repr

/-- Applies one permission-store call. -/
def applyPermOp (s : Store) : PermOp → Store
  | .upsert domain type duration expiresAt nowMs =>
    addSitePermission s domain type duration expiresAt nowMs
  | .revoke domain => removeSitePermission s domain

/-- Applies a sequence of permission-store calls, oldest first. -/
def applyPermOps (s : Store) (ops : List PermOp) : Store :=
  ops.foldl applyPermOp s

/-- Domain a permission-store call is about. -/
def permOpDomain : PermOp → String
  | .upsert domain _ _ _ _ => domain
  | .revoke domain => domain

/-- Records for one domain in a store. -/
def domainRecords (s : Store) (domain : String) : Store :=
  s.filter (fun p => p.domain == domain)

/-- Records for a domain that a single call leaves behind, viewed in
isolation: an upsert leaves exactly its record, a revoke none. -/
def lastWriteRecords (domain : String) : PermOp → Store
  | .upsert d type duration expiresAt nowMs =>
    if d == domain then [⟨d, some type, some duration, expiresAt, nowMs⟩] else []
  | .revoke _ => []

/-! ### Association-list map lemmas -/

/-- Keys of an association-list map, in order. -/
def keys {κ α : Type} (m : List (κ × α)) : List κ :=
  m.map (fun kv => kv.1)

/-- Does a dispatch allocate this requestId (a SIGN_EVENT arriving at a
millisecond whose string form is the id)? -/
def createsId (requestId : String) : GatewayOp → Bool
  | .signEventReq _ _ _ nowMs _ => makeRequestId nowMs == requestId
  | _ => false

/-! ### Concrete fixtures used by witnesses and counterexamples -/

/-- Logged-in context whose Signing Capability always succeeds. -/
def ctx0 : Ctx := ⟨true, ⟨true, true⟩, fun _ => .ok ⟨"f00d"⟩⟩

/-- Well-formed event at clock 1000 ms (`created_at` 1 s). -/
def evValid : EventArg :=
  .obj (some (.num (intNum 1))) (some (.num (intNum 1))) (some (.arr 0))
    (some (.str "hello"))

/-- Second well-formed event, distinguishable from `evValid`. -/
def evValidB : EventArg :=
  .obj (some (.num (intNum 1))) (some (.num (intNum 1))) (some (.arr 0))
    (some (.str "bye"))

/-- Logged-in context whose Signing Capability tags which event it signed:
`evValidB` signs to id "B", anything else to id "A". -/
def ctxAB : Ctx :=
  ⟨true, ⟨true, true⟩, fun e => .ok ⟨if e = evValidB then "B" else "A"⟩⟩

/-- Event lacking a `kind` field. -/
def evNoKind : EventArg :=
  .obj none (some (.num (intNum 1))) (some (.arr 0)) (some (.str "hello"))

/-- The JS number 2.5: `typeof` says number, but it is not an integer. -/
def halfNum : ℚ := Rat.mk' 5 2 (by decide) (by decide)

/-- Event whose `kind` is the non-integer number 2.5, otherwise well-formed
at clock 1000 ms. -/
def evFracKind : EventArg :=
  .obj (some (.num halfNum)) (some (.num (intNum 1))) (some (.arr 0))
    (some (.str "hello"))

/-- Record whose stored `expiresAt` is the (falsy) number 0. -/
def permZero : Permission := ⟨"site.example", some "allow", some "60", some 0, 0⟩

/-- Permanent deny record. -/
def permDeny : Permission := ⟨"evil.example", some "deny", some "permanent", none, 0⟩

/-- Unexpired record with an unrecognized decision string. -/
def permOdd : Permission := ⟨"odd.example", some "garbage", some "60", none, 0⟩

/-- Timed allow record that expired at 10 ms. -/
def permOld : Permission := ⟨"old.example", some "allow", some "5", some 10, 0⟩

/-- Pending request fixture. -/
def prFix : PendingReq := ⟨evValid, "site.example", "https://site.example"⟩

/-- Gateway state with one pending request "5" tracked by window 1. -/
def stFix : GatewayState :=
  ⟨[("5", prFix)], [(1, "5")],
   [("sign_request_5", (evValid, "site.example", "https://site.example"))]⟩

section BridgeLemmas

theorem intNum_cast (z : ℤ) : intNum z = (z : ℚ) := rfl

theorem jsLtInt_iff (q : ℚ) (z : ℤ) : jsLtInt q z = true ↔ q < (z : ℚ) := by
  rw [jsLtInt, decide_eq_true_eq, Rat.lt_def]
  simp

theorem jsGtInt_iff (q : ℚ) (z : ℤ) : jsGtInt q z = true ↔ (z : ℚ) < q := by
  rw [jsGtInt, decide_eq_true_eq, Rat.lt_def]
  simp

theorem pendingKeys_eq_keys (st : GatewayState) :
    pendingKeys st = keys st.pending := rfl

end BridgeLemmas

section MapLemmas

variable {κ α : Type} [BEq κ] [LawfulBEq κ]

theorem mapGet_eq_none_iff (m : List (κ × α)) (k : κ) :
    mapGet m k = none ↔ k ∉ keys m := by
  simp only [mapGet, Option.map_eq_none', List.find?_eq_none, keys,
    List.mem_map, not_exists, not_and, beq_eq_false_iff_ne, ne_eq]
  aesop

theorem mem_keys_of_mapGet (m : List (κ × α)) (k : κ) (v : α)
    (h : mapGet m k = some v) : k ∈ keys m := by
  by_contra hk
  rw [(mapGet_eq_none_iff m k).mpr hk] at h
  exact Option.noConfusion h

/-- The replace branch of `mapSet`, looked up at the written key. -/
theorem find?_replace_self (m : List (κ × α)) (k : κ) (v : α)
    (h : m.any (fun kv => kv.1 == k) = true) :
    (m.map (fun kv => if kv.1 == k then (k, v) else kv)).find?
      (fun kv => kv.1 == k) = some (k, v) := by
  induction m with
  | nil => simp at h
  | cons kv rest ih =>
    by_cases hh : kv.1 = k
    · simp [List.find?, hh]
    · have hb : (kv.1 == k) = false := beq_eq_false_iff_ne.mpr hh
      simp only [List.any_cons, hb, Bool.false_or] at h
      simpa [List.find?, hb] using ih h

/-- The replace branch of `mapSet`, looked up at any other key. -/
theorem find?_replace_ne (m : List (κ × α)) (k a : κ) (v : α) (h : a ≠ k) :
    (m.map (fun kv => if kv.1 == k then (k, v) else kv)).find?
      (fun kv => kv.1 == a) = m.find? (fun kv => kv.1 == a) := by
  induction m with
  | nil => rfl
  | cons kv rest ih =>
    by_cases hh : kv.1 = k
    · have h1 : (k == a) = false := beq_eq_false_iff_ne.mpr (fun he => h he.symm)
      have h2 : (kv.1 == a) = false := beq_eq_false_iff_ne.mpr
        (by rw [hh]; exact fun he => h he.symm)
      simp [List.find?, hh, h1, h2, ih]
    · have hb : (kv.1 == k) = false := beq_eq_false_iff_ne.mpr hh
      cases ha : kv.1 == a
      · simp [List.find?, hb, ha, ih]
      · simp [List.find?, hb, ha]

theorem find?_eq_none_of_any_false (m : List (κ × α)) (k : κ)
    (h : m.any (fun kv => kv.1 == k) = false) :
    m.find? (fun kv => kv.1 == k) = none := by
  rw [List.find?_eq_none]
  intro kv hm
  exact List.any_eq_false.mp h kv hm

theorem mapGet_mapSet_self (m : List (κ × α)) (k : κ) (v : α) :
    mapGet (mapSet m k v) k = some v := by
  rw [mapSet]
  by_cases hany : m.any (fun kv => kv.1 == k) = true
  · rw [if_pos hany, mapGet, find?_replace_self m k v hany]
    rfl
  · have hf : m.any (fun kv => kv.1 == k) = false := by
      cases hx : m.any (fun kv => kv.1 == k)
      · rfl
      · exact absurd hx hany
    rw [if_neg hany, mapGet, List.find?_append, find?_eq_none_of_any_false m k hf]
    simp [List.find?]

theorem mapGet_mapSet_ne (m : List (κ × α)) (k a : κ) (v : α) (h : a ≠ k) :
    mapGet (mapSet m k v) a = mapGet m a := by
  rw [mapSet]
  by_cases hany : m.any (fun kv => kv.1 == k) = true
  · rw [if_pos hany, mapGet, find?_replace_ne m k a v h]
    rfl
  · rw [if_neg hany, mapGet, List.find?_append]
    cases hfind : m.find? (fun kv => kv.1 == a) with
    | some kv => simp [mapGet, hfind]
    | none =>
      have hone : ([(k, v)] : List (κ × α)).find? (fun kv => kv.1 == a) = none := by
        rw [List.find?_eq_none]
        intro x hx
        rw [List.mem_singleton] at hx
        subst hx
        simpa using fun he => h he.symm
      rw [hone, mapGet, hfind]
      rfl

theorem keys_mapSet_of_mem (m : List (κ × α)) (k : κ) (v : α)
    (h : k ∈ keys m) : keys (mapSet m k v) = keys m := by
  have hany : m.any (fun kv => kv.1 == k) = true := by
    simp only [keys, List.mem_map] at h
    obtain ⟨kv, hm, he⟩ := h
    exact List.any_eq_true.mpr ⟨kv, hm, by simp [he]⟩
  rw [mapSet, if_pos hany, keys, keys, List.map_map]
  refine List.map_congr_left (fun kv _ => ?_)
  by_cases hh : kv.1 = k
  · simp [hh]
  · simp [beq_eq_false_iff_ne.mpr hh]

theorem keys_mapSet_of_not_mem (m : List (κ × α)) (k : κ) (v : α)
    (h : k ∉ keys m) : keys (mapSet m k v) = keys m ++ [k] := by
  have hany : m.any (fun kv => kv.1 == k) = false := by
    rw [List.any_eq_false]
    intro kv hm
    have hne : kv.1 ≠ k := fun hh => h (hh ▸ List.mem_map_of_mem _ hm)
    simp [hne]
  rw [mapSet, if_neg (by rw [hany]; exact Bool.false_ne_true), keys, keys,
    List.map_append]
  rfl

theorem mem_keys_mapSet (m : List (κ × α)) (k a : κ) (v : α) :
    a ∈ keys (mapSet m k v) ↔ a ∈ keys m ∨ a = k := by
  by_cases hk : k ∈ keys m
  · rw [keys_mapSet_of_mem m k v hk]
    constructor
    · exact Or.inl
    · rintro (h | rfl)
      · exact h
      · exact hk
  · rw [keys_mapSet_of_not_mem m k v hk]
    simp

theorem mapGet_mapDelete_self (m : List (κ × α)) (k : κ) :
    mapGet (mapDelete m k) k = none := by
  rw [mapGet_eq_none_iff, mapDelete, keys, List.mem_map]
  rintro ⟨kv, hm, he⟩
  rw [List.mem_filter] at hm
  exact absurd (beq_iff_eq.mpr he) (by simpa using hm.2)

theorem mem_keys_mapDelete (m : List (κ × α)) (k a : κ) :
    a ∈ keys (mapDelete m k) ↔ a ∈ keys m ∧ a ≠ k := by
  simp only [mapDelete, keys, List.mem_map, List.mem_filter, bne_iff_ne, ne_eq]
  constructor
  · rintro ⟨kv, ⟨hm, hne⟩, he⟩
    exact ⟨⟨kv, hm, he⟩, he ▸ hne⟩
  · rintro ⟨⟨kv, hm, he⟩, hne⟩
    exact ⟨kv, ⟨hm, he ▸ hne⟩, he⟩

theorem mapDelete_sublist (m : List (κ × α)) (k : κ) :
    List.Sublist (mapDelete m k) m :=
  List.filter_sublist m

theorem nodup_keys_mapSet (m : List (κ × α)) (k : κ) (v : α)
    (h : (keys m).Nodup) : (keys (mapSet m k v)).Nodup := by
  by_cases hk : k ∈ keys m
  · rw [keys_mapSet_of_mem m k v hk]
    exact h
  · rw [keys_mapSet_of_not_mem m k v hk]
    rw [List.nodup_append]
    refine ⟨h, List.nodup_singleton k, fun a ha => ?_⟩
    simp only [List.mem_singleton]
    exact fun he => hk (he ▸ ha)

theorem nodup_keys_mapDelete (m : List (κ × α)) (k : κ)
    (h : (keys m).Nodup) : (keys (mapDelete m k)).Nodup :=
  h.sublist (List.Sublist.map _ (mapDelete_sublist m k))

theorem deleteFirstByValue_sublist {β : Type} [BEq β]
    (m : List (κ × β)) (v : β) :
    List.Sublist (deleteFirstByValue m v) m := by
  induction m with
  | nil => exact List.Sublist.refl _
  | cons kv rest ih =>
    rw [deleteFirstByValue]
    split
    · exact List.sublist_cons_self kv rest
    · exact List.Sublist.cons₂ kv ih

end MapLemmas

section ValidatorLemmas

theorem mem_kindErrors_iff (kind : Option JVal) :
    "Missing or invalid \"kind\" field" ∈ kindErrors kind ↔
      ¬ ∃ q, kind = some (.num q) := by
  cases kind with
  | none => simp [kindErrors]
  | some v => cases v <;> simp [kindErrors]

theorem eq_of_mem_kindErrors (kind : Option JVal) (x : String)
    (h : x ∈ kindErrors kind) : x = "Missing or invalid \"kind\" field" := by
  cases kind with
  | none => simpa [kindErrors] using h
  | some v => cases v <;> simpa [kindErrors] using h

theorem createdAt_range_cond (q : ℚ) (nowSec : ℤ) :
    (jsLtInt q (nowSec - 3600) || jsGtInt q (nowSec + 3600)) = true ↔
      (q < (nowSec : ℚ) - 3600 ∨ (nowSec : ℚ) + 3600 < q) := by
  rw [Bool.or_eq_true, jsLtInt_iff, jsGtInt_iff]
  push_cast
  exact Iff.rfl

theorem mem_createdAtErrors_missing_iff (c : Option JVal) (nowSec : ℤ) :
    "Missing or invalid \"created_at\" field" ∈ createdAtErrors c nowSec ↔
      ¬ ∃ q, c = some (.num q) := by
  cases c with
  | none => simp [createdAtErrors]
  | some v =>
    cases v with
    | num q =>
      rw [createdAtErrors]
      split <;> simp
    | str s => simp [createdAtErrors]
    | arr n => simp [createdAtErrors]
    | other => simp [createdAtErrors]

theorem mem_createdAtErrors_range_iff (c : Option JVal) (nowSec : ℤ) :
    "\"created_at\" is outside reasonable time range" ∈ createdAtErrors c nowSec ↔
      ∃ q, c = some (.num q) ∧
        (q < (nowSec : ℚ) - 3600 ∨ (nowSec : ℚ) + 3600 < q) := by
  cases c with
  | none => simp [createdAtErrors]
  | some v =>
    cases v with
    | num q =>
      rw [createdAtErrors]
      split
      · next h => simpa using (createdAt_range_cond q nowSec).mp h
      · next h =>
        have := (createdAt_range_cond q nowSec).not.mp (by simpa using h)
        simpa using this
    | str s => simp [createdAtErrors]
    | arr n => simp [createdAtErrors]
    | other => simp [createdAtErrors]

theorem eq_of_mem_createdAtErrors (c : Option JVal) (nowSec : ℤ) (x : String)
    (h : x ∈ createdAtErrors c nowSec) :
    x = "Missing or invalid \"created_at\" field" ∨
      x = "\"created_at\" is outside reasonable time range" := by
  cases c with
  | none => simp [createdAtErrors] at h; simp [h]
  | some v =>
    cases v with
    | num q =>
      rw [createdAtErrors] at h
      split at h
      · simp at h; simp [h]
      · simp at h
    | str s => simp [createdAtErrors] at h; simp [h]
    | arr n => simp [createdAtErrors] at h; simp [h]
    | other => simp [createdAtErrors] at h; simp [h]

theorem mem_tagsErrors_iff (tags : Option JVal) :
    "Missing or invalid \"tags\" field" ∈ tagsErrors tags ↔
      ¬ ∃ n, tags = some (.arr n) := by
  cases tags with
  | none => simp [tagsErrors]
  | some v => cases v <;> simp [tagsErrors]

theorem eq_of_mem_tagsErrors (tags : Option JVal) (x : String)
    (h : x ∈ tagsErrors tags) : x = "Missing or invalid \"tags\" field" := by
  cases tags with
  | none => simpa [tagsErrors] using h
  | some v => cases v <;> simpa [tagsErrors] using h

theorem mem_contentErrors_iff (content : Option JVal) :
    "Missing or invalid \"content\" field" ∈ contentErrors content ↔
      ¬ ∃ s, content = some (.str s) := by
  cases content with
  | none => simp [contentErrors]
  | some v => cases v <;> simp [contentErrors]

theorem eq_of_mem_contentErrors (content : Option JVal) (x : String)
    (h : x ∈ contentErrors content) :
    x = "Missing or invalid \"content\" field" := by
  cases content with
  | none => simpa [contentErrors] using h
  | some v => cases v <;> simpa [contentErrors] using h

theorem kindErrors_eq_nil_iff (kind : Option JVal) :
    kindErrors kind = [] ↔ ∃ q, kind = some (.num q) := by
  cases kind with
  | none => simp [kindErrors]
  | some v => cases v <;> simp [kindErrors]

theorem createdAtErrors_eq_nil_iff (c : Option JVal) (nowSec : ℤ) :
    createdAtErrors c nowSec = [] ↔
      ∃ q, c = some (.num q) ∧
        ¬ (q < (nowSec : ℚ) - 3600 ∨ (nowSec : ℚ) + 3600 < q) := by
  cases c with
  | none => simp [createdAtErrors]
  | some v =>
    cases v with
    | num q =>
      rw [createdAtErrors]
      split
      · next h =>
        have hq := (createdAt_range_cond q nowSec).mp h
        refine iff_of_false (by simp) ?_
        rintro ⟨q2, hq2, hnot⟩
        obtain rfl : q = q2 := by simpa using hq2
        exact hnot hq
      · next h =>
        have := (createdAt_range_cond q nowSec).not.mp (by simpa using h)
        simpa using this
    | str s => simp [createdAtErrors]
    | arr n => simp [createdAtErrors]
    | other => simp [createdAtErrors]

theorem tagsErrors_eq_nil_iff (tags : Option JVal) :
    tagsErrors tags = [] ↔ ∃ n, tags = some (.arr n) := by
  cases tags with
  | none => simp [tagsErrors]
  | some v => cases v <;> simp [tagsErrors]

theorem contentErrors_eq_nil_iff (content : Option JVal) :
    contentErrors content = [] ↔ ∃ s, content = some (.str s) := by
  cases content with
  | none => simp [contentErrors]
  | some v => cases v <;> simp [contentErrors]

end ValidatorLemmas

section StoreLemmas

theorem find?_removeSitePermission (s : Store) (domain : String) :
    (removeSitePermission s domain).find? (fun q => q.domain == domain) = none := by
  rw [List.find?_eq_none]
  intro p hp
  rw [removeSitePermission, List.mem_filter] at hp
  simpa using hp.2

theorem getSiteStatus_of_truthy_type (s : Store) (domain : String)
    (nowMs : ℕ) (p : Permission) (t : String)
    (hfind : s.find? (fun q => q.domain == domain) = some p)
    (hexp : isExpired p.expiresAt nowMs = false)
    (htype : p.type = some t) (hne : t ≠ "") :
    getSiteStatus s domain nowMs =
      ((if t = "deny" then .denied else .allowed), s) := by
  by_cases hd : t = "deny"
  · simp [getSiteStatus, hfind, hexp, htype, truthyStr, hd, hne]
  · simp [getSiteStatus, hfind, hexp, htype, truthyStr, hd, hne]

theorem find?_addSitePermission (s : Store) (domain type duration : String)
    (expiresAt : Option ℕ) (nowMs : ℕ) :
    (addSitePermission s domain type duration expiresAt nowMs).find?
        (fun p => p.domain == domain) =
      some ⟨domain, some type, some duration, expiresAt, nowMs⟩ := by
  rw [addSitePermission, List.find?_append]
  have h1 : (s.filter (fun p => p.domain ≠ domain)).find?
      (fun p => p.domain == domain) = none :=
    find?_removeSitePermission s domain
  rw [h1]
  simp [List.find?]

theorem isExpired_future (nowMs delta : ℕ) (h : 0 < delta) :
    isExpired (some (nowMs + delta)) nowMs = false := by
  rw [isExpired]
  simp only [Bool.and_eq_false_imp, decide_eq_true_eq]
  intro _
  simp only [decide_eq_false_iff_not, not_lt]
  omega

/-- Reading the freshly upserted domain reflects its decision at any time
when the new record is not already expired. -/
theorem getSiteStatus_addSitePermission (s : Store)
    (domain type duration : String) (expiresAt : Option ℕ) (nowMs : ℕ)
    (hexp : isExpired expiresAt nowMs = false) (hne : type ≠ "") :
    (getSiteStatus (addSitePermission s domain type duration expiresAt nowMs)
        domain nowMs).1 =
      (if type = "deny" then SiteStatus.denied else SiteStatus.allowed) := by
  rw [getSiteStatus_of_truthy_type
    (addSitePermission s domain type duration expiresAt nowMs) domain nowMs
    ⟨domain, some type, some duration, expiresAt, nowMs⟩ type
    (find?_addSitePermission s domain type duration expiresAt nowMs) hexp rfl hne]

theorem filter_eq_after_filter_ne (s : Store) (d : String) :
    (s.filter (fun p => p.domain ≠ d)).filter (fun p => p.domain == d) = [] := by
  induction s with
  | nil => rfl
  | cons p rest ih =>
    by_cases h : p.domain = d
    · simpa [h] using ih
    · simpa [h] using ih

theorem filter_eq_comm_filter_ne (s : Store) (d domain : String)
    (h : d ≠ domain) :
    (s.filter (fun p => p.domain ≠ d)).filter (fun p => p.domain == domain) =
      s.filter (fun p => p.domain == domain) := by
  induction s with
  | nil => rfl
  | cons p rest ih =>
    by_cases h1 : p.domain = domain
    · have h2 : p.domain ≠ d := by rw [h1]; exact fun he => h he.symm
      rw [List.filter_cons_of_pos (by simpa using h2),
        List.filter_cons_of_pos (by simpa using h1),
        List.filter_cons_of_pos (by simpa using h1), ih]
    · by_cases h2 : p.domain = d
      · rw [List.filter_cons_of_neg (by simpa using h2),
          List.filter_cons_of_neg (by simpa using h1), ih]
      · rw [List.filter_cons_of_pos (by simpa using h2),
          List.filter_cons_of_neg (by simpa using h1),
          List.filter_cons_of_neg (by simpa using h1), ih]

theorem domainRecords_applyPermOp_match (s : Store) (op : PermOp)
    (domain : String) (h : permOpDomain op = domain) :
    domainRecords (applyPermOp s op) domain = lastWriteRecords domain op := by
  cases op with
  | upsert d type duration expiresAt nowMs =>
    rw [permOpDomain] at h
    subst h
    rw [applyPermOp, lastWriteRecords, if_pos (by simp), domainRecords,
      addSitePermission, List.filter_append, filter_eq_after_filter_ne]
    simp
  | revoke d =>
    rw [permOpDomain] at h
    subst h
    rw [applyPermOp, lastWriteRecords, domainRecords, removeSitePermission,
      filter_eq_after_filter_ne]

theorem domainRecords_applyPermOp_mismatch (s : Store) (op : PermOp)
    (domain : String) (h : permOpDomain op ≠ domain) :
    domainRecords (applyPermOp s op) domain = domainRecords s domain := by
  cases op with
  | upsert d type duration expiresAt nowMs =>
    rw [permOpDomain] at h
    rw [applyPermOp, domainRecords, addSitePermission, List.filter_append,
      filter_eq_comm_filter_ne s d domain h, domainRecords]
    simp [h]
  | revoke d =>
    rw [permOpDomain] at h
    rw [applyPermOp, domainRecords, removeSitePermission,
      filter_eq_comm_filter_ne s d domain h, domainRecords]

theorem domainRecords_applyPermOps (s : Store) (ops : List PermOp)
    (domain : String) :
    domainRecords (applyPermOps s ops) domain =
      match (ops.filter (fun o => permOpDomain o == domain)).getLast? with
      | some op => lastWriteRecords domain op
      | none => domainRecords s domain := by
  induction ops using List.reverseRecOn with
  | nil => rfl
  | append_singleton rest op ih =>
    have happ : applyPermOps s (rest ++ [op]) =
        applyPermOp (applyPermOps s rest) op := by
      rw [applyPermOps, applyPermOps, List.foldl_append]
      rfl
    rw [happ, List.filter_append]
    by_cases hd : permOpDomain op = domain
    · have : List.filter (fun o => permOpDomain o == domain) [op] = [op] := by
        simp [hd]
      rw [this, List.getLast?_concat]
      exact domainRecords_applyPermOp_match _ op domain hd
    · have : List.filter (fun o => permOpDomain o == domain) [op] = [] := by
        simp [hd]
      rw [this, List.append_nil,
        domainRecords_applyPermOp_mismatch _ op domain hd, ih]

theorem lastWriteRecords_length_le (domain : String) (op : PermOp) :
    (lastWriteRecords domain op).length ≤ 1 := by
  cases op with
  | upsert d type duration expiresAt nowMs =>
    rw [lastWriteRecords]
    split <;> simp
  | revoke d => simp [lastWriteRecords]

end StoreLemmas

section GatewayStepLemmas

/-- A SIGN_EVENT dispatch either leaves the gateway state unchanged (reply
paths) or installs exactly the new pending request, window tracking, and
transient payload (suspension path). -/
theorem handleSignEvent_state (ctx : Ctx) (st : GatewayState) (store : Store)
    (domain origin : String) (event : EventArg) (nowMs winId : ℕ) :
    (handleSignEvent ctx st store domain origin event nowMs winId).2.1 = st ∨
    (handleSignEvent ctx st store domain origin event nowMs winId).2.1 =
      { pending := mapSet st.pending (makeRequestId nowMs) ⟨event, domain, origin⟩
        dialogWindows := mapSet st.dialogWindows winId (makeRequestId nowMs)
        transient := mapSet st.transient (transientKey (makeRequestId nowMs))
          (event, domain, origin) } := by
  rw [handleSignEvent]
  dsimp only
  repeat' split
  all_goals first
    | exact Or.inl rfl
    | exact Or.inr rfl

/-- Shape of `stepOp` on a SIGN_EVENT dispatch: no captured resolver is ever
invoked by it. -/
theorem stepOp_signEvent (ctx : Ctx) (s : GatewayState × Store)
    (domain origin : String) (event : EventArg) (nowMs winId : ℕ) :
    stepOp ctx s (.signEventReq domain origin event nowMs winId) =
      (((handleSignEvent ctx s.1 s.2 domain origin event nowMs winId).2.1,
        (handleSignEvent ctx s.1 s.2 domain origin event nowMs winId).2.2.1),
        []) := rfl

/-- A SIGN_DIALOG_RESPONSE dispatch either finds no pending entry and is a
complete no-op, or removes the entry from all three tables and resolves it
once. -/
theorem handleDialogResponse_cases (ctx : Ctx) (st : GatewayState)
    (msg : DialogMsg) :
    (mapGet st.pending msg.requestId = none ∧
      handleDialogResponse ctx st msg = (st, none, [])) ∨
    (∃ pr rep effs, mapGet st.pending msg.requestId = some pr ∧
      handleDialogResponse ctx st msg =
        ({ pending := mapDelete st.pending msg.requestId
           dialogWindows := deleteFirstByValue st.dialogWindows msg.requestId
           transient := mapDelete st.transient (transientKey msg.requestId) },
          some (msg.requestId, rep), effs)) := by
  cases hget : mapGet st.pending msg.requestId with
  | none =>
    refine Or.inl ⟨rfl, ?_⟩
    rw [handleDialogResponse, hget]
  | some pr =>
    refine Or.inr ?_
    by_cases happ : msg.approved = true
    · cases hsig : ctx.sign pr.event with
      | ok se =>
        refine ⟨pr, .ok se,
          Effect.signInvoked pr.event ::
            (if ctx.settings.enableSigningHistory = true then
              [Effect.historyAppended pr.domain (eventKindOf pr.event) se.id]
            else []), rfl, ?_⟩
        rw [handleDialogResponse, hget]
        dsimp only
        rw [if_pos happ, hsig]
      | error e =>
        refine ⟨pr, .err e, [Effect.signInvoked pr.event], rfl, ?_⟩
        rw [handleDialogResponse, hget]
        dsimp only
        rw [if_pos happ, hsig]
    · refine ⟨pr, .err (errorOrDefault msg.error), [], rfl, ?_⟩
      rw [handleDialogResponse, hget]
      dsimp only
      rw [if_neg happ]

/-- A window-removal dispatch: untracked windows are ignored; a tracked
window with no surviving pending request only drops the tracker entry; a
tracked window with a pending request resolves it with the DialogClosed
error and cleans up all three tables. -/
theorem handleWindowRemoved_cases (st : GatewayState) (winId : ℕ) :
    (mapGet st.dialogWindows winId = none ∧
      handleWindowRemoved st winId = (st, none)) ∨
    (∃ rid, mapGet st.dialogWindows winId = some rid ∧
      mapGet st.pending rid = none ∧
      handleWindowRemoved st winId =
        ({ st with dialogWindows := mapDelete st.dialogWindows winId }, none)) ∨
    (∃ rid pr, mapGet st.dialogWindows winId = some rid ∧
      mapGet st.pending rid = some pr ∧
      handleWindowRemoved st winId =
        ({ pending := mapDelete st.pending rid
           dialogWindows := mapDelete st.dialogWindows winId
           transient := mapDelete st.transient (transientKey rid) },
          some (rid, .err "User closed dialog"))) := by
  cases hwin : mapGet st.dialogWindows winId with
  | none =>
    refine Or.inl ⟨rfl, ?_⟩
    rw [handleWindowRemoved, hwin]
  | some rid =>
    cases hpend : mapGet st.pending rid with
    | none =>
      refine Or.inr (Or.inl ⟨rid, rfl, hpend, ?_⟩)
      rw [handleWindowRemoved, hwin]
      dsimp only
      rw [hpend]
    | some pr =>
      refine Or.inr (Or.inr ⟨rid, pr, rfl, hpend, ?_⟩)
      rw [handleWindowRemoved, hwin]
      dsimp only
      rw [hpend]

/-- Membership in the pending keys is the same as a successful `mapGet`. -/
theorem mem_pendingKeys_iff (st : GatewayState) (rid : String) :
    rid ∈ pendingKeys st ↔ mapGet st.pending rid ≠ none := by
  rw [pendingKeys_eq_keys, ne_eq, mapGet_eq_none_iff, not_not]

theorem resolutionsFor_nil (rid : String) :
    resolutionsFor rid [] = 0 := by
  simp [resolutionsFor]

theorem resolutionsFor_singleton (rid a : String) (rep : Reply) :
    resolutionsFor rid [(a, rep)] = if a = rid then 1 else 0 := by
  by_cases h : a = rid
  · simp [resolutionsFor, h]
  · simp [resolutionsFor, h]

theorem resolutionsFor_append (rid : String) (l1 l2 : List (String × Reply)) :
    resolutionsFor rid (l1 ++ l2) =
      resolutionsFor rid l1 + resolutionsFor rid l2 := by
  simp [resolutionsFor, List.countP_append]

/-- Every dispatch that does not allocate `rid` falls into one of three
cases: `rid` stays pending with no resolution, `rid` is removed and resolved
exactly once, or `rid` was not pending and stays absent with no
resolution. -/
theorem stepOp_trichotomy (ctx : Ctx) (s : GatewayState × Store)
    (op : GatewayOp) (rid : String) (hfree : createsId rid op = false) :
    (rid ∈ pendingKeys (stepOp ctx s op).1.1 ∧ rid ∈ pendingKeys s.1 ∧
      resolutionsFor rid (stepOp ctx s op).2 = 0) ∨
    (rid ∉ pendingKeys (stepOp ctx s op).1.1 ∧ rid ∈ pendingKeys s.1 ∧
      resolutionsFor rid (stepOp ctx s op).2 = 1) ∨
    (rid ∉ pendingKeys (stepOp ctx s op).1.1 ∧ rid ∉ pendingKeys s.1 ∧
      resolutionsFor rid (stepOp ctx s op).2 = 0) := by
  cases op with
  | signEventReq domain origin event nowMs winId =>
    rw [createsId] at hfree
    have hne : rid ≠ makeRequestId nowMs := by
      intro he
      subst he
      simp at hfree
    rw [stepOp_signEvent]
    dsimp only
    rcases handleSignEvent_state ctx s.1 s.2 domain origin event nowMs winId with
      hst | hst
    · rw [hst]
      by_cases hmem : rid ∈ pendingKeys s.1
      · exact Or.inl ⟨hmem, hmem, resolutionsFor_nil rid⟩
      · exact Or.inr (Or.inr ⟨hmem, hmem, resolutionsFor_nil rid⟩)
    · rw [hst]
      have hiff : rid ∈ keys (mapSet s.1.pending (makeRequestId nowMs)
          (⟨event, domain, origin⟩ : PendingReq)) ↔ rid ∈ keys s.1.pending := by
        rw [mem_keys_mapSet]
        exact or_iff_left hne
      by_cases hmem : rid ∈ pendingKeys s.1
      · exact Or.inl ⟨hiff.mpr hmem, hmem, resolutionsFor_nil rid⟩
      · exact Or.inr (Or.inr ⟨fun h => hmem (hiff.mp h), hmem, resolutionsFor_nil rid⟩)
  | dialogResponse msg =>
    rcases handleDialogResponse_cases ctx s.1 msg with ⟨hget, heq⟩ |
      ⟨pr, rep, effs, hget, heq⟩
    · rw [stepOp, heq]
      dsimp only [Option.toList]
      by_cases hmem : rid ∈ pendingKeys s.1
      · exact Or.inl ⟨hmem, hmem, resolutionsFor_nil rid⟩
      · exact Or.inr (Or.inr ⟨hmem, hmem, resolutionsFor_nil rid⟩)
    · rw [stepOp, heq]
      dsimp only [Option.toList]
      by_cases hrid : rid = msg.requestId
      · have hmem : rid ∈ pendingKeys s.1 :=
          (mem_pendingKeys_iff s.1 rid).mpr
            (by rw [hrid, hget]; exact fun h => Option.noConfusion h)
        refine Or.inr (Or.inl ⟨?_, hmem, ?_⟩)
        · show rid ∉ keys (mapDelete s.1.pending msg.requestId)
          rw [mem_keys_mapDelete]
          exact fun h => h.2 hrid
        · rw [resolutionsFor_singleton, if_pos hrid.symm]
      · have hiff : rid ∈ keys (mapDelete s.1.pending msg.requestId) ↔
            rid ∈ keys s.1.pending := by
          rw [mem_keys_mapDelete]
          exact and_iff_left hrid
        have hres : resolutionsFor rid [(msg.requestId, rep)] = 0 := by
          rw [resolutionsFor_singleton, if_neg (fun h => hrid h.symm)]
        by_cases hmem : rid ∈ pendingKeys s.1
        · exact Or.inl ⟨hiff.mpr hmem, hmem, hres⟩
        · exact Or.inr (Or.inr ⟨fun h => hmem (hiff.mp h), hmem, hres⟩)
  | windowRemoved winId =>
    rcases handleWindowRemoved_cases s.1 winId with ⟨hwin, heq⟩ |
      ⟨rid2, hwin, hpend, heq⟩ | ⟨rid2, pr, hwin, hpend, heq⟩
    · rw [stepOp, heq]
      dsimp only [Option.toList]
      by_cases hmem : rid ∈ pendingKeys s.1
      · exact Or.inl ⟨hmem, hmem, resolutionsFor_nil rid⟩
      · exact Or.inr (Or.inr ⟨hmem, hmem, resolutionsFor_nil rid⟩)
    · rw [stepOp, heq]
      dsimp only [Option.toList]
      by_cases hmem : rid ∈ pendingKeys s.1
      · exact Or.inl ⟨hmem, hmem, resolutionsFor_nil rid⟩
      · exact Or.inr (Or.inr ⟨hmem, hmem, resolutionsFor_nil rid⟩)
    · rw [stepOp, heq]
      dsimp only [Option.toList]
      by_cases hrid : rid = rid2
      · have hmem : rid ∈ pendingKeys s.1 :=
          (mem_pendingKeys_iff s.1 rid).mpr
            (by rw [hrid, hpend]; exact fun h => Option.noConfusion h)
        refine Or.inr (Or.inl ⟨?_, hmem, ?_⟩)
        · show rid ∉ keys (mapDelete s.1.pending rid2)
          rw [mem_keys_mapDelete]
          exact fun h => h.2 hrid
        · rw [resolutionsFor_singleton, if_pos hrid.symm]
      · have hiff : rid ∈ keys (mapDelete s.1.pending rid2) ↔
            rid ∈ keys s.1.pending := by
          rw [mem_keys_mapDelete]
          exact and_iff_left hrid
        have hres : resolutionsFor rid [(rid2, Reply.err "User closed dialog")] = 0 := by
          rw [resolutionsFor_singleton, if_neg (fun h => hrid h.symm)]
        by_cases hmem : rid ∈ pendingKeys s.1
        · exact Or.inl ⟨hiff.mpr hmem, hmem, hres⟩
        · exact Or.inr (Or.inr ⟨fun h => hmem (hiff.mp h), hmem, hres⟩)

/-- A SIGN_DIALOG_RESPONSE whose requestId is pending always resolves it in
that very dispatch. -/
theorem stepOp_dialog_hit (ctx : Ctx) (s : GatewayState × Store)
    (msg : DialogMsg) (hmem : msg.requestId ∈ pendingKeys s.1) :
    resolutionsFor msg.requestId (stepOp ctx s (.dialogResponse msg)).2 = 1 := by
  rcases handleDialogResponse_cases ctx s.1 msg with ⟨hget, heq⟩ |
    ⟨pr, rep, effs, hget, heq⟩
  · exact absurd hget ((mem_pendingKeys_iff s.1 msg.requestId).mp hmem)
  · rw [stepOp, heq]
    dsimp only [Option.toList]
    rw [resolutionsFor_singleton]
    simp

/-- A SIGN_DIALOG_RESPONSE whose requestId matches no pending entry is a
complete no-op: state untouched, no resolver invoked. -/
theorem stepOp_dialog_miss (ctx : Ctx) (s : GatewayState × Store)
    (msg : DialogMsg) (hget : mapGet s.1.pending msg.requestId = none) :
    stepOp ctx s (.dialogResponse msg) = (s, []) := by
  rcases handleDialogResponse_cases ctx s.1 msg with ⟨hg2, heq⟩ |
    ⟨pr, rep, effs, hg2, heq⟩
  · rw [stepOp, heq]
    rfl
  · rw [hget] at hg2
    exact Option.noConfusion hg2

/-- Core trace invariant: along any dispatch trace that never allocates
`rid`, a non-pending `rid` is never resolved; a pending `rid` is resolved at
most once, and exactly once as soon as the trace contains a
SIGN_DIALOG_RESPONSE for it. -/
theorem runTrace_resolutions (ctx : Ctx) (trace : List GatewayOp) :
    ∀ (s : GatewayState × Store) (rid : String),
      (∀ op ∈ trace, createsId rid op = false) →
      (rid ∉ pendingKeys s.1 →
        resolutionsFor rid (runTrace ctx s trace).2 = 0) ∧
      (rid ∈ pendingKeys s.1 →
        resolutionsFor rid (runTrace ctx s trace).2 ≤ 1 ∧
        ((∃ msg, GatewayOp.dialogResponse msg ∈ trace ∧ msg.requestId = rid) →
          resolutionsFor rid (runTrace ctx s trace).2 = 1)) := by
  induction trace with
  | nil =>
    intro s rid hfree
    refine ⟨fun _ => resolutionsFor_nil rid, fun _ => ⟨?_, ?_⟩⟩
    · show resolutionsFor rid [] ≤ 1
      rw [resolutionsFor_nil]
      exact Nat.zero_le 1
    · rintro ⟨msg, hmem, -⟩
      exact absurd hmem (List.not_mem_nil _)
  | cons op rest ih =>
    intro s rid hfree
    have hfree_op : createsId rid op = false := hfree op (List.mem_cons_self op rest)
    have hfree_rest : ∀ o ∈ rest, createsId rid o = false :=
      fun o ho => hfree o (List.mem_cons_of_mem op ho)
    have hrun : (runTrace ctx s (op :: rest)).2 =
        (stepOp ctx s op).2 ++ (runTrace ctx (stepOp ctx s op).1 rest).2 := rfl
    have hih := ih (stepOp ctx s op).1 rid hfree_rest
    rw [hrun, resolutionsFor_append]
    rcases stepOp_trichotomy ctx s op rid hfree_op with
      ⟨hafter, hbefore, h0⟩ | ⟨hafter, hbefore, h1⟩ | ⟨hafter, hbefore, h0⟩
    · refine ⟨fun hnot => absurd hbefore hnot, fun _ => ⟨?_, ?_⟩⟩
      · rw [h0, Nat.zero_add]
        exact (hih.2 hafter).1
      · rintro ⟨msg, hmemtrace, hmsgrid⟩
        rcases List.mem_cons.mp hmemtrace with heqop | hmemrest
        · exfalso
          have hhit := stepOp_dialog_hit ctx s msg
            (by rw [hmsgrid]; exact hbefore)
          rw [hmsgrid] at hhit
          rw [← heqop] at h0
          rw [h0] at hhit
          exact Nat.noConfusion hhit
        · rw [h0, Nat.zero_add]
          exact (hih.2 hafter).2 ⟨msg, hmemrest, hmsgrid⟩
    · refine ⟨fun hnot => absurd hbefore hnot, fun _ => ?_⟩
      have hrest0 : resolutionsFor rid (runTrace ctx (stepOp ctx s op).1 rest).2 = 0 :=
        hih.1 hafter
      rw [h1, hrest0]
      exact ⟨Nat.le_refl 1, fun _ => rfl⟩
    · refine ⟨fun _ => ?_, fun hmem => absurd hmem hbefore⟩
      rw [h0, Nat.zero_add]
      exact hih.1 hafter

/-- A SIGN_DIALOG_RESPONSE whose requestId is pending resolves exactly that
requestId. -/
theorem handleDialogResponse_resolves (ctx : Ctx) (st : GatewayState)
    (msg : DialogMsg) (pr : PendingReq)
    (hget : mapGet st.pending msg.requestId = some pr) :
    ∃ rep, (handleDialogResponse ctx st msg).2.1 = some (msg.requestId, rep) := by
  rcases handleDialogResponse_cases ctx st msg with ⟨hg, _⟩ |
    ⟨pr2, rep, effs, hg, heq⟩
  · rw [hget] at hg
    exact Option.noConfusion hg
  · exact ⟨rep, by rw [heq]⟩

end GatewayStepLemmas

/-! ### Claim theorems -/

/-- C2: for every SignEvent request (with an active identity), a validation
failure makes the gateway reply `Malformed event: <joined errors>` with the
gateway state, the permission store, and the effect list untouched — in
particular no permission is consulted or changed, the Signing Capability is
never invoked, no history entry is written, and no dialog is opened,
whatever the stored permission for the domain (including `Allowed`). -/
theorem C2_malformed_rejected_before_permission
    (ctx : Ctx) (st : GatewayState) (store : Store) (domain origin : String)
    (event : EventArg) (nowMs winId : ℕ)
    (hlog : ctx.loggedIn = true)
    (hbad : validateEvent event nowMs ≠ []) :
    handleSignEvent ctx st store domain origin event nowMs winId =
      (some (.err ("Malformed event: " ++
          String.intercalate ", " (validateEvent event nowMs))), st, store, []) := by
  simp [handleSignEvent, hlog, hbad]

/-- Witness for C2: the no-kind event is rejected as malformed even though the
store holds a permanent allow record for the domain. -/
theorem C2_witness :
    ctx0.loggedIn = true ∧ validateEvent evNoKind 1000 ≠ [] ∧
    handleSignEvent ctx0 stFix [⟨"site.example", some "allow", some "permanent", none, 0⟩]
        "site.example" "https://site.example" evNoKind 1000 7 =
      (some (.err ("Malformed event: " ++
          String.intercalate ", " (validateEvent evNoKind 1000))), stFix,
        [⟨"site.example", some "allow", some "permanent", none, 0⟩], []) :=
  ⟨rfl, by decide,
    C2_malformed_rejected_before_permission ctx0 stFix
      [⟨"site.example", some "allow", some "permanent", none, 0⟩]
      "site.example" "https://site.example" evNoKind 1000 7 rfl (by decide)⟩

/-- C3: a well-formed SignEvent request from a domain holding a stored,
unexpired deny record is answered `User rejected` in the same dispatch, with
no Signing Capability invocation, no history effect, no dialog, and both the
gateway state and the permission store unchanged. -/
theorem C3_denied_auto_reject
    (ctx : Ctx) (st : GatewayState) (store : Store) (domain origin : String)
    (event : EventArg) (nowMs winId : ℕ) (p : Permission)
    (hlog : ctx.loggedIn = true)
    (hok : validateEvent event nowMs = [])
    (hfind : store.find? (fun q => q.domain == domain) = some p)
    (hexp : isExpired p.expiresAt nowMs = false)
    (hdeny : p.type = some "deny") :
    handleSignEvent ctx st store domain origin event nowMs winId =
      (some (.err "User rejected"), st, store, []) := by
  have hstat : getSiteStatus store domain nowMs = (.denied, store) := by
    simp [getSiteStatus, hfind, hexp, hdeny, truthyStr]
  simp [handleSignEvent, hlog, hok, hstat]

/-- Witness for C3: a valid event from `evil.example` with a permanent deny
record is auto-rejected with no effects. -/
theorem C3_witness :
    validateEvent evValid 1000 = [] ∧ permDeny.type = some "deny" ∧
    handleSignEvent ctx0 stFix [permDeny] "evil.example" "https://evil.example"
        evValid 1000 7 =
      (some (.err "User rejected"), stFix, [permDeny], []) :=
  ⟨by decide, rfl,
    C3_denied_auto_reject ctx0 stFix [permDeny] "evil.example"
      "https://evil.example" evValid 1000 7 permDeny rfl (by decide) (by decide)
      (by decide) rfl⟩

/-- C10: a present, unexpired record with any truthy `type` is honored as a
decision by `getSiteStatus` without touching the store: `'deny'` maps to
denied and every other truthy string — not only `'allow'` — maps to
allowed. -/
theorem C10_truthy_type_honored
    (s : Store) (domain : String) (nowMs : ℕ) (p : Permission) (t : String)
    (hfind : s.find? (fun q => q.domain == domain) = some p)
    (hexp : isExpired p.expiresAt nowMs = false)
    (htype : p.type = some t) (hne : t ≠ "") :
    getSiteStatus s domain nowMs =
      ((if t = "deny" then .denied else .allowed), s) :=
  getSiteStatus_of_truthy_type s domain nowMs p t hfind hexp htype hne

/-- Witness for C10: the unrecognized decision string `garbage` is coerced to
allowed, with the record left in place. -/
theorem C10_witness :
    permOdd.type = some "garbage" ∧
    getSiteStatus [permOdd] "odd.example" 1000 = (.allowed, [permOdd]) :=
  ⟨rfl, by
    have h := C10_truthy_type_honored [permOdd] "odd.example" 1000 permOdd
      "garbage" (by decide) (by decide) rfl (by decide)
    simpa using h⟩

/-- Counterexample to C4 as stated: a record whose stored `expiresAt` is the
number 0 — which is before the current time 100 — is *not* treated as
expired, because JS `permission.expiresAt && ...` short-circuits on the falsy
0: `getSiteStatus` honors the record as allowed and leaves it in the
store. -/
theorem C4_counterexample :
    permZero.expiresAt = some 0 ∧ (0 : ℕ) < 100 ∧
    getSiteStatus [permZero] "site.example" 100 = (.allowed, [permZero]) := by
  decide

/-- C4 (amended): `getSiteStatus` returns Unknown and leaves the store alone
when no record exists; purges and returns Unknown when the record's
`expiresAt` is a truthy (nonzero) timestamp before the current time — a
stored `expiresAt` of 0 is falsy and is instead honored as non-expiring;
purges and returns Unknown when the record lacks a truthy decision (`type`)
field; and otherwise maps the decision to denied (`'deny'`) or allowed
(everything else) without modifying the store. -/
theorem C4_get_site_status_cases (s : Store) (domain : String) (nowMs : ℕ) :
    (s.find? (fun p => p.domain == domain) = none →
      getSiteStatus s domain nowMs = (.unknown, s)) ∧
    (∀ p, s.find? (fun p => p.domain == domain) = some p →
      isExpired p.expiresAt nowMs = true →
      getSiteStatus s domain nowMs = (.unknown, removeSitePermission s domain) ∧
      (removeSitePermission s domain).find? (fun q => q.domain == domain) = none) ∧
    (∀ p, s.find? (fun p => p.domain == domain) = some p →
      isExpired p.expiresAt nowMs = false →
      truthyStr p.type = false →
      getSiteStatus s domain nowMs = (.unknown, removeSitePermission s domain) ∧
      (removeSitePermission s domain).find? (fun q => q.domain == domain) = none) ∧
    (∀ p t, s.find? (fun p => p.domain == domain) = some p →
      isExpired p.expiresAt nowMs = false →
      p.type = some t → t ≠ "" →
      getSiteStatus s domain nowMs =
        ((if t = "deny" then .denied else .allowed), s)) := by
  refine ⟨fun hnone => ?_, fun p hfind hexp => ?_, fun p hfind hexp htype => ?_,
    fun p t hfind hexp htype hne => getSiteStatus_of_truthy_type s domain nowMs
      p t hfind hexp htype hne⟩
  · simp [getSiteStatus, hnone]
  · exact ⟨by simp [getSiteStatus, hfind, hexp],
      find?_removeSitePermission s domain⟩
  · exact ⟨by simp [getSiteStatus, hfind, hexp, htype],
      find?_removeSitePermission s domain⟩

/-- Witness for C4 (amended): the expired-record branch on a timed allow
record that expired at 10 ms, read at 1000 ms. -/
theorem C4_witness :
    isExpired permOld.expiresAt 1000 = true ∧
    getSiteStatus [permOld] "old.example" 1000 =
      (.unknown, removeSitePermission [permOld] "old.example") ∧
    (removeSitePermission [permOld] "old.example").find?
      (fun q => q.domain == "old.example") = none :=
  ⟨by decide,
    ((C4_get_site_status_cases [permOld] "old.example" 1000).2.1 permOld
      (by decide) (by decide)).1,
    ((C4_get_site_status_cases [permOld] "old.example" 1000).2.1 permOld
      (by decide) (by decide)).2⟩

/-- Counterexample to C8 as stated: the validator checks `typeof === 'number'`
rather than integrality, so an event whose `kind` is the non-integer number
2.5 produces no error at all — the claim's "error when kind is ... not an
integer" does not hold on the code. -/
theorem C8_counterexample :
    halfNum.isInt = false ∧ validateEvent evFracKind 1000000 = [] := by
  decide

/-- C8 (amended): `validateEvent` is a pure function of the event and the
current time that accumulates all defects without short-circuiting: a null or
non-object event yields exactly the single error `Event is not an object`
and no field checks; otherwise it independently reports an error when `kind`
is missing or not a *number* (not necessarily an integer), when `created_at`
is missing or not a number, or is a number more than 3600 seconds away from
the current wall-clock second, when `tags` is not an array, and when
`content` is not a string; the returned sequence is empty exactly when none
of these defects is present. -/
theorem C8_validate_event_characterization (nowMs : ℕ) :
    (validateEvent .jsNull nowMs = ["Event is not an object"]) ∧
    (validateEvent .primitive nowMs = ["Event is not an object"]) ∧
    (∀ k c t cn,
      ("Missing or invalid \"kind\" field" ∈ validateEvent (.obj k c t cn) nowMs ↔
        ¬ ∃ q, k = some (.num q)) ∧
      ("Missing or invalid \"created_at\" field" ∈ validateEvent (.obj k c t cn) nowMs ↔
        ¬ ∃ q, c = some (.num q)) ∧
      ("\"created_at\" is outside reasonable time range" ∈
          validateEvent (.obj k c t cn) nowMs ↔
        ∃ q, c = some (.num q) ∧
          (q < (((nowMs / 1000 : ℕ) : ℤ) : ℚ) - 3600 ∨
            (((nowMs / 1000 : ℕ) : ℤ) : ℚ) + 3600 < q)) ∧
      ("Missing or invalid \"tags\" field" ∈ validateEvent (.obj k c t cn) nowMs ↔
        ¬ ∃ n, t = some (.arr n)) ∧
      ("Missing or invalid \"content\" field" ∈ validateEvent (.obj k c t cn) nowMs ↔
        ¬ ∃ s, cn = some (.str s)) ∧
      (validateEvent (.obj k c t cn) nowMs = [] ↔
        (∃ q, k = some (.num q)) ∧
        (∃ q, c = some (.num q) ∧
          ¬ (q < (((nowMs / 1000 : ℕ) : ℤ) : ℚ) - 3600 ∨
            (((nowMs / 1000 : ℕ) : ℤ) : ℚ) + 3600 < q)) ∧
        (∃ n, t = some (.arr n)) ∧ (∃ s, cn = some (.str s)))) := by
  refine ⟨rfl, rfl, fun k c t cn => ⟨?_, ?_, ?_, ?_, ?_, ?_⟩⟩
  · rw [validateEvent]
    simp only [List.mem_append]
    rw [← mem_kindErrors_iff]
    constructor
    · rintro (((h | h) | h) | h)
      · exact h
      · rcases eq_of_mem_createdAtErrors _ _ _ h with h2 | h2 <;> exact absurd h2 (by decide)
      · exact absurd (eq_of_mem_tagsErrors _ _ h) (by decide)
      · exact absurd (eq_of_mem_contentErrors _ _ h) (by decide)
    · exact fun h => Or.inl (Or.inl (Or.inl h))
  · rw [validateEvent]
    simp only [List.mem_append]
    rw [← mem_createdAtErrors_missing_iff c ((nowMs / 1000 : ℕ) : ℤ)]
    constructor
    · rintro (((h | h) | h) | h)
      · exact absurd (eq_of_mem_kindErrors _ _ h) (by decide)
      · exact h
      · exact absurd (eq_of_mem_tagsErrors _ _ h) (by decide)
      · exact absurd (eq_of_mem_contentErrors _ _ h) (by decide)
    · exact fun h => Or.inl (Or.inl (Or.inr h))
  · rw [validateEvent]
    simp only [List.mem_append]
    rw [← mem_createdAtErrors_range_iff c ((nowMs / 1000 : ℕ) : ℤ)]
    constructor
    · rintro (((h | h) | h) | h)
      · exact absurd (eq_of_mem_kindErrors _ _ h) (by decide)
      · exact h
      · exact absurd (eq_of_mem_tagsErrors _ _ h) (by decide)
      · exact absurd (eq_of_mem_contentErrors _ _ h) (by decide)
    · exact fun h => Or.inl (Or.inl (Or.inr h))
  · rw [validateEvent]
    simp only [List.mem_append]
    rw [← mem_tagsErrors_iff]
    constructor
    · rintro (((h | h) | h) | h)
      · exact absurd (eq_of_mem_kindErrors _ _ h) (by decide)
      · rcases eq_of_mem_createdAtErrors _ _ _ h with h2 | h2 <;> exact absurd h2 (by decide)
      · exact h
      · exact absurd (eq_of_mem_contentErrors _ _ h) (by decide)
    · exact fun h => Or.inl (Or.inr h)
  · rw [validateEvent]
    simp only [List.mem_append]
    rw [← mem_contentErrors_iff]
    constructor
    · rintro (((h | h) | h) | h)
      · exact absurd (eq_of_mem_kindErrors _ _ h) (by decide)
      · rcases eq_of_mem_createdAtErrors _ _ _ h with h2 | h2 <;> exact absurd h2 (by decide)
      · exact absurd (eq_of_mem_tagsErrors _ _ h) (by decide)
      · exact h
    · exact fun h => Or.inr h
  · rw [validateEvent]
    simp only [List.append_eq_nil]
    rw [kindErrors_eq_nil_iff, createdAtErrors_eq_nil_iff, tagsErrors_eq_nil_iff,
      contentErrors_eq_nil_iff]
    aesop

/-- Witness for C8 (amended): a 2-hour-stale `created_at` at clock 10000000 ms
is reported as out of range, and the fully well-formed event validates to the
empty list. -/
theorem C8_witness :
    ("\"created_at\" is outside reasonable time range" ∈
      validateEvent (.obj (some (.num (intNum 1))) (some (.num (intNum 2800)))
        (some (.arr 0)) (some (.str ""))) 10000000) ∧
    validateEvent evValid 1000 = [] := by
  constructor
  · refine ((C8_validate_event_characterization 10000000).2.2
      (some (.num (intNum 1))) (some (.num (intNum 2800))) (some (.arr 0))
      (some (.str ""))).2.2.1.mpr ⟨intNum 2800, rfl, Or.inl ?_⟩
    rw [intNum_cast]
    norm_num
  · exact ((C8_validate_event_characterization 1000).2.2
      (some (.num (intNum 1))) (some (.num (intNum 1))) (some (.arr 0))
      (some (.str "hello"))).2.2.2.2.2.mpr
      ⟨⟨intNum 1, rfl⟩, ⟨intNum 1, rfl, by rw [intNum_cast]; norm_num⟩,
        ⟨0, rfl⟩, ⟨"hello", rfl⟩⟩

/-- C6: when an approval window closes outside the DialogResponse flow while
its pending request still exists, the `onRemoved` listener resolves the
original caller with the `User closed dialog` error, removes the transient
`sign_request_<requestId>` payload, and deletes both the pending-request
entry and the windowId→requestId tracker entry. -/
theorem C6_window_abandonment
    (st : GatewayState) (winId : ℕ) (requestId : String) (pr : PendingReq)
    (hwin : mapGet st.dialogWindows winId = some requestId)
    (hpend : mapGet st.pending requestId = some pr) :
    (handleWindowRemoved st winId).2 =
      some (requestId, .err "User closed dialog") ∧
    mapGet (handleWindowRemoved st winId).1.pending requestId = none ∧
    mapGet (handleWindowRemoved st winId).1.transient (transientKey requestId) = none ∧
    mapGet (handleWindowRemoved st winId).1.dialogWindows winId = none := by
  rw [handleWindowRemoved]
  simp only [hwin]
  have hpend1 : mapGet (mapDelete st.dialogWindows winId) winId = none :=
    mapGet_mapDelete_self st.dialogWindows winId
  simp only [hpend]
  exact ⟨trivial, mapGet_mapDelete_self st.pending requestId,
    mapGet_mapDelete_self st.transient (transientKey requestId), hpend1⟩

/-- Witness for C6: closing window 1 abandons pending request "5". -/
theorem C6_witness :
    (handleWindowRemoved stFix 1).2 = some ("5", .err "User closed dialog") ∧
    mapGet (handleWindowRemoved stFix 1).1.pending "5" = none ∧
    mapGet (handleWindowRemoved stFix 1).1.transient "sign_request_5" = none ∧
    mapGet (handleWindowRemoved stFix 1).1.dialogWindows 1 = none :=
  C6_window_abandonment stFix 1 "5" prFix (by decide) (by decide)

/-- C7: after any sequence of `addSitePermission`/`removeSitePermission`
calls, the records for a domain are exactly what the last call for that
domain dictates — a single record matching the last upsert, or none if the
last call was a revoke — so at most one record ever exists per domain; a
sequence with no call for the domain leaves its records untouched; revoke is
idempotent and a revoke of an absent domain is a no-op (and cannot error,
being a total filter). -/
theorem C7_single_record_per_domain (s : Store) (ops : List PermOp)
    (domain : String) :
    (∀ op, (ops.filter (fun o => permOpDomain o == domain)).getLast? = some op →
      domainRecords (applyPermOps s ops) domain = lastWriteRecords domain op ∧
      (domainRecords (applyPermOps s ops) domain).length ≤ 1) ∧
    ((ops.filter (fun o => permOpDomain o == domain)).getLast? = none →
      domainRecords (applyPermOps s ops) domain = domainRecords s domain) ∧
    (removeSitePermission (removeSitePermission s domain) domain =
      removeSitePermission s domain) ∧
    (domainRecords s domain = [] → removeSitePermission s domain = s) := by
  refine ⟨fun op hlast => ?_, fun hnone => ?_, ?_, fun hempty => ?_⟩
  · have h := domainRecords_applyPermOps s ops domain
    rw [hlast] at h
    exact ⟨h, h ▸ lastWriteRecords_length_le domain op⟩
  · have h := domainRecords_applyPermOps s ops domain
    rw [hnone] at h
    exact h
  · simp only [removeSitePermission, List.filter_filter]
    exact List.filter_congr (fun p _ => by simp)
  · rw [removeSitePermission, List.filter_eq_self]
    intro p hp
    have : ¬ (p.domain == domain) = true := by
      intro hbeq
      have : p ∈ domainRecords s domain :=
        List.mem_filter.mpr ⟨hp, hbeq⟩
      rw [hempty] at this
      exact absurd this (List.not_mem_nil p)
    simpa using this

/-- Witness for C7: three calls for `site.example` (allow upsert, revoke,
deny upsert) interleaved with a call for another domain end in exactly the
final deny record. -/
theorem C7_witness :
    (([PermOp.upsert "site.example" "allow" "60" (some 99) 1,
       PermOp.revoke "site.example",
       PermOp.upsert "other.example" "allow" "permanent" none 2,
       PermOp.upsert "site.example" "deny" "permanent" none 3].filter
        (fun o => permOpDomain o == "site.example")).getLast? =
      some (PermOp.upsert "site.example" "deny" "permanent" none 3)) ∧
    domainRecords (applyPermOps [permZero]
      [PermOp.upsert "site.example" "allow" "60" (some 99) 1,
       PermOp.revoke "site.example",
       PermOp.upsert "other.example" "allow" "permanent" none 2,
       PermOp.upsert "site.example" "deny" "permanent" none 3]) "site.example" =
      [⟨"site.example", some "deny", some "permanent", none, 3⟩] ∧
    removeSitePermission (removeSitePermission [permZero] "site.example")
        "site.example" =
      removeSitePermission [permZero] "site.example" := by
  refine ⟨by decide, ?_, ?_⟩
  · have h := (C7_single_record_per_domain [permZero]
      [PermOp.upsert "site.example" "allow" "60" (some 99) 1,
       PermOp.revoke "site.example",
       PermOp.upsert "other.example" "allow" "permanent" none 2,
       PermOp.upsert "site.example" "deny" "permanent" none 3] "site.example").1
      (PermOp.upsert "site.example" "deny" "permanent" none 3) (by decide)
    rw [h.1]
    decide
  · exact (C7_single_record_per_domain [permZero] [] "site.example").2.2.1

/-- Counterexample to C1 as stated: a pending request can be resolved zero
times.  Two SIGN_EVENT dispatches in the same millisecond share the
requestId "1000", and the second creation overwrites the first pending
entry, discarding its captured resolver.  In a trace consisting of both
creations followed by the operator approving the dialog, the complete
resolver-invocation log is a single entry — and its reply carries the
signature of the *second* request's event (the capability tags `evValidB`
as "B") — so the first Pending Request created was resolved by none of
dialog-approve, dialog-reject, or window-abandonment. -/
theorem C1_counterexample :
    (stepOp ctxAB ((⟨[], [], []⟩ : GatewayState), ([] : Store))
        (.signEventReq "s" "o" evValid 1000 7)).1.1.pending =
      [("1000", ⟨evValid, "s", "o"⟩)] ∧
    (runTrace ctxAB ((⟨[], [], []⟩ : GatewayState), ([] : Store))
        [.signEventReq "s" "o" evValid 1000 7,
         .signEventReq "s" "o" evValidB 1000 8,
         .dialogResponse ⟨"1000", true, none⟩]).2 =
      [("1000", .ok ⟨"B"⟩)] := by
  decide

/-- C1 (amended): along any dispatch trace that never re-allocates its
requestId — i.e. contains no SIGN_EVENT arriving at a millisecond whose
string form is that id; a same-instant SIGN_EVENT instead overwrites the
pending entry and its resolver is then never invoked — a pending request is
resolved at most once in total, and exactly once as soon as any of the
three resolving dispatches for it arrives (a SIGN_DIALOG_RESPONSE carrying
its id — approve or reject — resolves it in that dispatch if still pending,
and if window abandonment resolved it earlier the count is still exactly
one); moreover a SIGN_DIALOG_RESPONSE whose requestId matches no pending
entry is a complete no-op: the state is untouched and no resolver is
invoked (and the handler, a total function, cannot throw). -/
theorem C1_resolve_exactly_once :
    (∀ (ctx : Ctx) (s : GatewayState × Store) (trace : List GatewayOp)
        (rid : String),
      (∀ op ∈ trace, createsId rid op = false) →
      rid ∈ pendingKeys s.1 →
      resolutionsFor rid (runTrace ctx s trace).2 ≤ 1 ∧
      ((∃ msg, GatewayOp.dialogResponse msg ∈ trace ∧ msg.requestId = rid) →
        resolutionsFor rid (runTrace ctx s trace).2 = 1)) ∧
    (∀ (ctx : Ctx) (s : GatewayState × Store) (msg : DialogMsg),
      mapGet s.1.pending msg.requestId = none →
      stepOp ctx s (.dialogResponse msg) = (s, [])) :=
  ⟨fun ctx s trace rid hfree hmem =>
    (runTrace_resolutions ctx trace s rid hfree).2 hmem,
   fun ctx s msg hget => stepOp_dialog_miss ctx s msg hget⟩

/-- Witness for C1: pending request "5" is resolved exactly once by the trace
window-close-then-dialog-response (the abandonment resolves it, the late
dialog response is a no-op); and a dialog response against an empty pending
table is a complete no-op. -/
theorem C1_witness :
    resolutionsFor "5" (runTrace ctx0 (stFix, ([] : Store))
      [.windowRemoved 1, .dialogResponse ⟨"5", true, none⟩]).2 = 1 ∧
    stepOp ctx0 ((⟨[], [], []⟩ : GatewayState), ([] : Store))
        (.dialogResponse ⟨"5", true, none⟩) =
      (((⟨[], [], []⟩ : GatewayState), ([] : Store)), []) :=
  ⟨(C1_resolve_exactly_once.1 ctx0 (stFix, ([] : Store))
      [.windowRemoved 1, .dialogResponse ⟨"5", true, none⟩] "5"
      (by decide) (by decide)).2 ⟨⟨"5", true, none⟩, by decide, rfl⟩,
   C1_resolve_exactly_once.2 ctx0 ((⟨[], [], []⟩ : GatewayState), ([] : Store))
      ⟨"5", true, none⟩ (by decide)⟩

/-- Counterexample to C5 as stated: requestIds are `Date.now().toString()`,
so two sign requests dispatched in the same millisecond (1000 ms) receive
the same requestId "1000" and the second creation overwrites the first
pending entry — afterwards the table holds a single entry carrying the
second request's event. -/
theorem C5_counterexample :
    (stepOp ctx0 ((⟨[], [], []⟩ : GatewayState), ([] : Store))
        (.signEventReq "s" "o" evValid 1000 7)).1.1.pending =
      [("1000", ⟨evValid, "s", "o"⟩)] ∧
    (stepOp ctx0 (stepOp ctx0 ((⟨[], [], []⟩ : GatewayState), ([] : Store))
        (.signEventReq "s" "o" evValid 1000 7)).1
        (.signEventReq "s" "o" evValidB 1000 8)).1.1.pending =
      [("1000", ⟨evValidB, "s", "o"⟩)] := by
  decide

/-- C5 (amended): any two pending requests simultaneously present have
distinct requestIds — every dispatch preserves duplicate-freedom of the
pending table's key list — but requestIds are not unique at creation: a
SIGN_EVENT arriving in the same millisecond as an existing pending request
either replies without touching the table or allocates the same requestId,
leaving the key set unchanged and overwriting the earlier entry with the new
request. -/
theorem C5_same_instant_collision :
    (∀ (ctx : Ctx) (s : GatewayState × Store) (op : GatewayOp),
      (pendingKeys s.1).Nodup → (pendingKeys (stepOp ctx s op).1.1).Nodup) ∧
    (∀ (ctx : Ctx) (st : GatewayState) (store : Store) (domain origin : String)
        (event : EventArg) (nowMs winId : ℕ),
      makeRequestId nowMs ∈ pendingKeys st →
      (handleSignEvent ctx st store domain origin event nowMs winId).2.1 = st ∨
      (pendingKeys
          (handleSignEvent ctx st store domain origin event nowMs winId).2.1 =
        pendingKeys st ∧
       mapGet
          (handleSignEvent ctx st store domain origin event nowMs winId).2.1.pending
          (makeRequestId nowMs) = some ⟨event, domain, origin⟩)) := by
  constructor
  · intro ctx s op hnd
    cases op with
    | signEventReq domain origin event nowMs winId =>
      rw [stepOp_signEvent]
      dsimp only
      rcases handleSignEvent_state ctx s.1 s.2 domain origin event nowMs winId with
        hst | hst
      · rw [hst]
        exact hnd
      · rw [hst]
        exact nodup_keys_mapSet s.1.pending (makeRequestId nowMs) _ hnd
    | dialogResponse msg =>
      rcases handleDialogResponse_cases ctx s.1 msg with ⟨hget, heq⟩ |
        ⟨pr, rep, effs, hget, heq⟩
      · rw [stepOp, heq]
        exact hnd
      · rw [stepOp, heq]
        exact nodup_keys_mapDelete s.1.pending msg.requestId hnd
    | windowRemoved winId =>
      rcases handleWindowRemoved_cases s.1 winId with ⟨hwin, heq⟩ |
        ⟨rid2, hwin, hpend, heq⟩ | ⟨rid2, pr, hwin, hpend, heq⟩
      · rw [stepOp, heq]
        exact hnd
      · rw [stepOp, heq]
        exact hnd
      · rw [stepOp, heq]
        exact nodup_keys_mapDelete s.1.pending rid2 hnd
  · intro ctx st store domain origin event nowMs winId hmem
    rcases handleSignEvent_state ctx st store domain origin event nowMs winId with
      hst | hst
    · exact Or.inl hst
    · refine Or.inr ⟨?_, ?_⟩
      · rw [hst]
        exact keys_mapSet_of_mem st.pending (makeRequestId nowMs) _ hmem
      · rw [hst]
        exact mapGet_mapSet_self st.pending (makeRequestId nowMs) _

/-- Witness for C5 (amended): the collision state after the first creation at
1000 ms has duplicate-free keys, and a second creation at the same
millisecond keeps the key set `["1000"]` while the entry now holds the
second event. -/
theorem C5_witness :
    (pendingKeys (stepOp ctx0 (stFix, ([] : Store))
      (.signEventReq "s" "o" evValid 1000 7)).1.1).Nodup ∧
    (pendingKeys
        (handleSignEvent ctx0 ⟨[("1000", ⟨evValid, "s", "o"⟩)], [], []⟩ []
          "s" "o" evValidB 1000 8).2.1 =
      pendingKeys (⟨[("1000", ⟨evValid, "s", "o"⟩)], [], []⟩ : GatewayState) ∧
     mapGet (handleSignEvent ctx0 ⟨[("1000", ⟨evValid, "s", "o"⟩)], [], []⟩ []
          "s" "o" evValidB 1000 8).2.1.pending "1000" =
        some ⟨evValidB, "s", "o"⟩) := by
  constructor
  · exact C5_same_instant_collision.1 ctx0 (stFix, ([] : Store))
      (.signEventReq "s" "o" evValid 1000 7) (by decide)
  · have h := C5_same_instant_collision.2 ctx0
      ⟨[("1000", ⟨evValid, "s", "o"⟩)], [], []⟩ [] "s" "o" evValidB 1000 8
      (by decide)
    rcases h with h | h
    · exfalso
      have : (handleSignEvent ctx0 ⟨[("1000", ⟨evValid, "s", "o"⟩)], [], []⟩ []
          "s" "o" evValidB 1000 8).2.1 =
          (⟨[("1000", ⟨evValid, "s", "o"⟩)], [], []⟩ : GatewayState) := h
      rw [show (handleSignEvent ctx0 ⟨[("1000", ⟨evValid, "s", "o"⟩)], [], []⟩ []
          "s" "o" evValidB 1000 8).2.1 =
          ⟨[("1000", ⟨evValidB, "s", "o"⟩)], [(8, "1000")],
            [("sign_request_1000", (evValidB, "s", "o"))]⟩ from by decide] at this
      exact absurd this (by decide)
    · exact h

/-- C9: in the dialog-response flow, a response carrying a non-"once" scope
upserts the Permission Store before the approval or denial is acted on: the
store the SIGN_DIALOG_RESPONSE handler runs against (which it never writes)
is exactly the upserted one, and at that moment — when the Signing
Capability is invoked on approve, or the original caller's resolver is
invoked — `getSiteStatus` already reports the chosen decision (denied for
the deny options, allowed for the allow options); the handler then resolves
the pending caller. -/
theorem C9_upsert_before_acting
    (ctx : Ctx) (st : GatewayState) (store : Store)
    (domain requestId value : String) (nowMs : ℕ) (pr : PendingReq)
    (hpend : mapGet st.pending requestId = some pr)
    (hval : value ∈ (["allow_5", "allow_15", "allow_60", "allow_240",
      "allow_1440", "allow_permanent", "deny_5", "deny_15", "deny_60",
      "deny_240", "deny_1440", "deny_permanent"] : List String)) :
    (approveFlow ctx st store domain requestId value nowMs).1 =
      (approveClick store domain requestId value nowMs).1 ∧
    (∃ rep, (approveFlow ctx st store domain requestId value nowMs).2.2.1 =
      some (requestId, rep)) ∧
    (getSiteStatus (approveFlow ctx st store domain requestId value nowMs).1
        domain nowMs).1 =
      (if value ∈ (["deny_5", "deny_15", "deny_60", "deny_240", "deny_1440",
        "deny_permanent"] : List String) then SiteStatus.denied
       else SiteStatus.allowed) := by
  have hone : (0 : ℕ) < 5 * 60 * 1000 := by decide
  fin_cases hval
  · exact ⟨rfl, handleDialogResponse_resolves ctx st _ pr hpend, by
      rw [if_neg (by decide)]
      show (getSiteStatus (addSitePermission store domain "allow" "5"
        (some (nowMs + 5 * 60 * 1000)) nowMs) domain nowMs).1 = _
      rw [getSiteStatus_addSitePermission store domain "allow" "5" _ nowMs
        (isExpired_future nowMs _ (by decide)) (by decide)]
      decide⟩
  · exact ⟨rfl, handleDialogResponse_resolves ctx st _ pr hpend, by
      rw [if_neg (by decide)]
      show (getSiteStatus (addSitePermission store domain "allow" "15"
        (some (nowMs + 15 * 60 * 1000)) nowMs) domain nowMs).1 = _
      rw [getSiteStatus_addSitePermission store domain "allow" "15" _ nowMs
        (isExpired_future nowMs _ (by decide)) (by decide)]
      decide⟩
  · exact ⟨rfl, handleDialogResponse_resolves ctx st _ pr hpend, by
      rw [if_neg (by decide)]
      show (getSiteStatus (addSitePermission store domain "allow" "60"
        (some (nowMs + 60 * 60 * 1000)) nowMs) domain nowMs).1 = _
      rw [getSiteStatus_addSitePermission store domain "allow" "60" _ nowMs
        (isExpired_future nowMs _ (by decide)) (by decide)]
      decide⟩
  · exact ⟨rfl, handleDialogResponse_resolves ctx st _ pr hpend, by
      rw [if_neg (by decide)]
      show (getSiteStatus (addSitePermission store domain "allow" "240"
        (some (nowMs + 240 * 60 * 1000)) nowMs) domain nowMs).1 = _
      rw [getSiteStatus_addSitePermission store domain "allow" "240" _ nowMs
        (isExpired_future nowMs _ (by decide)) (by decide)]
      decide⟩
  · exact ⟨rfl, handleDialogResponse_resolves ctx st _ pr hpend, by
      rw [if_neg (by decide)]
      show (getSiteStatus (addSitePermission store domain "allow" "1440"
        (some (nowMs + 1440 * 60 * 1000)) nowMs) domain nowMs).1 = _
      rw [getSiteStatus_addSitePermission store domain "allow" "1440" _ nowMs
        (isExpired_future nowMs _ (by decide)) (by decide)]
      decide⟩
  · exact ⟨rfl, handleDialogResponse_resolves ctx st _ pr hpend, by
      rw [if_neg (by decide)]
      show (getSiteStatus (addSitePermission store domain "allow" "permanent"
        none nowMs) domain nowMs).1 = _
      rw [getSiteStatus_addSitePermission store domain "allow" "permanent"
        none nowMs rfl (by decide)]
      decide⟩
  · exact ⟨rfl, handleDialogResponse_resolves ctx st _ pr hpend, by
      rw [if_pos (by decide)]
      show (getSiteStatus (addSitePermission store domain "deny" "5"
        (some (nowMs + 5 * 60 * 1000)) nowMs) domain nowMs).1 = _
      rw [getSiteStatus_addSitePermission store domain "deny" "5" _ nowMs
        (isExpired_future nowMs _ (by decide)) (by decide)]
      decide⟩
  · exact ⟨rfl, handleDialogResponse_resolves ctx st _ pr hpend, by
      rw [if_pos (by decide)]
      show (getSiteStatus (addSitePermission store domain "deny" "15"
        (some (nowMs + 15 * 60 * 1000)) nowMs) domain nowMs).1 = _
      rw [getSiteStatus_addSitePermission store domain "deny" "15" _ nowMs
        (isExpired_future nowMs _ (by decide)) (by decide)]
      decide⟩
  · exact ⟨rfl, handleDialogResponse_resolves ctx st _ pr hpend, by
      rw [if_pos (by decide)]
      show (getSiteStatus (addSitePermission store domain "deny" "60"
        (some (nowMs + 60 * 60 * 1000)) nowMs) domain nowMs).1 = _
      rw [getSiteStatus_addSitePermission store domain "deny" "60" _ nowMs
        (isExpired_future nowMs _ (by decide)) (by decide)]
      decide⟩
  · exact ⟨rfl, handleDialogResponse_resolves ctx st _ pr hpend, by
      rw [if_pos (by decide)]
      show (getSiteStatus (addSitePermission store domain "deny" "240"
        (some (nowMs + 240 * 60 * 1000)) nowMs) domain nowMs).1 = _
      rw [getSiteStatus_addSitePermission store domain "deny" "240" _ nowMs
        (isExpired_future nowMs _ (by decide)) (by decide)]
      decide⟩
  · exact ⟨rfl, handleDialogResponse_resolves ctx st _ pr hpend, by
      rw [if_pos (by decide)]
      show (getSiteStatus (addSitePermission store domain "deny" "1440"
        (some (nowMs + 1440 * 60 * 1000)) nowMs) domain nowMs).1 = _
      rw [getSiteStatus_addSitePermission store domain "deny" "1440" _ nowMs
        (isExpired_future nowMs _ (by decide)) (by decide)]
      decide⟩
  · exact ⟨rfl, handleDialogResponse_resolves ctx st _ pr hpend, by
      rw [if_pos (by decide)]
      show (getSiteStatus (addSitePermission store domain "deny" "permanent"
        none nowMs) domain nowMs).1 = _
      rw [getSiteStatus_addSitePermission store domain "deny" "permanent"
        none nowMs rfl (by decide)]
      decide⟩

/-- Witness for C9: the operator picks "Deny for 15 minutes" on pending
request "5": the permission store already reports denied when the resolver
fires, and the resolver is invoked. -/
theorem C9_witness :
    (approveFlow ctx0 stFix [] "site.example" "5" "deny_15" 2000).1 =
      (approveClick [] "site.example" "5" "deny_15" 2000).1 ∧
    (∃ rep, (approveFlow ctx0 stFix [] "site.example" "5" "deny_15" 2000).2.2.1 =
      some ("5", rep)) ∧
    (getSiteStatus (approveFlow ctx0 stFix [] "site.example" "5" "deny_15" 2000).1
        "site.example" 2000).1 = SiteStatus.denied := by
  have h := C9_upsert_before_acting ctx0 stFix [] "site.example" "5" "deny_15"
    2000 prFix (by decide) (by decide)
  refine ⟨h.1, h.2.1, ?_⟩
  rw [h.2.2, if_pos (by decide)]

end Postr
